import Mathlib

/-!
# Verification of `distill4_normalize.py`

A shallow embedding of the event-log replay-and-normalization engine of
`distill4_normalize.py` (class `Distill4Inst`), together with theorems that
settle the frozen claims about it.

Modelling conventions:
* Python ints are `Int`; nullable numerics are `Option Int`.
* Python float division `hp / max_hp` is modelled with exact rationals (`ℚ`).
* Python dict-shaped events are a flat structure `Ev`; payload fields that a
  given event kind does not carry are present with default values (Python dict
  value-equality is modelled by structural equality of `Ev`).
* Fallible code (Python exceptions) returns `Option`/`Except Err`.
* Code of this repository that lives outside `src/` (the `heuristics.utils`
  event-log helpers) is modelled from the spec; each such definition carries a
  doc comment starting with `Modelled from the spec:`.
* External collaborators (the avrae combat-state decoder) are modelled at their
  interface: a `combat_state_update` payload already carries its decoded
  serialized combatants.
-/

/-- Errors raised by the Python code (exception kinds). -/
inductive Err where
  | indexError
  | stopIteration
  | valueError
  | typeError
  | keyError
  | nameError
  | noCharacter
  | assertionError
deriving DecidableEq, Repr

/-- The display-relevant part of an avrae `Character` (full character record
cached by `(owner, upstream)`); `normalize_actor` reads `race`, `levels`
(stringified as the class label), `description` and `actions` from it. -/
structure Character where
  race : String
  levels : String
  description : String
  actions : List String
deriving DecidableEq, Repr

/-- Fields common to every materialized combatant that `normalize_actor`
reads: name, hp numbers, effect/attack names, spellbook entries
(name, prepared) and the controller id. -/
structure CombatantBase where
  name : String
  hp : Option Int
  maxHp : Option Int
  tempHp : Option Int
  effects : List String
  attacks : List String
  spells : List (String × Bool)
  controllerId : Int
deriving DecidableEq, Repr

/-- Which concrete avrae combatant class a materialized combatant is an
instance of (`PlayerCombatant` / `MonsterCombatant` / `CombatantGroup` /
plain `Combatant`); the `isinstance` dispatch of `normalize_actor`. -/
inductive CombatantKind where
  | basic
  | player (character : Character)
  | monster (monsterName : String)
  | group
deriving DecidableEq, Repr

/-- A materialized combatant (case (d) of the actor shapes). -/
structure Combatant where
  base : CombatantBase
  kind : CombatantKind
deriving DecidableEq, Repr

/-- The serialized-combatant discriminator (`"type"` key) of an
already-typed combatant dict (case (c) of the actor shapes).  A serialized
`PlayerCombatant` carries `(character_owner, character_id)` and its full
character detail is resolved through the session character cache. -/
inductive SerKind where
  | basic
  | monster (monsterName : String)
  | group
  | player (owner : Int) (upstream : Int)
deriving DecidableEq, Repr

/-- A raw actor payload as it appears in an event (`caster`, `targets`,
serialized combat-state combatants): one of the raw shapes dispatched on by
`normalize_actor` / decoded by `deserialize_combatant_sync`.
* `character`: a raw player-character payload (has `owner` and `upstream`
  keys); `Character.from_dict` reads the character detail `ch` from it and the
  promotion `PlayerCombatant.from_character` yields a player combatant.
* `monster`: a raw monster template (no `owner`, no `type` key).
* `serialized`: an already-typed combatant dict (`type` key present). -/
inductive RawActor where
  | character (owner : Int) (upstream : Int) (ch : Character) (base : CombatantBase)
  | monster (monsterName : String) (base : CombatantBase)
  | serialized (base : CombatantBase) (k : SerKind)
deriving DecidableEq, Repr

/-- The raw `"name"` key of a raw actor payload. -/
def RawActor.name : RawActor → String
  | .character _ _ _ b => b.name
  | .monster _ b => b.name
  | .serialized b _ => b.name

/-- An entry of an automation run's `targets` list: either a bare string or
an actor payload. -/
inductive TargetRef where
  | str (s : String)
  | actor (a : RawActor)
deriving DecidableEq, Repr

/-- Display name of a target entry (`t["name"] if not isinstance(t, str) else t`). -/
def TargetRef.displayName : TargetRef → String
  | .str s => s
  | .actor a => a.name

/-- The payload of a `combat_state_update` event, already decoded at the
avrae `Combat.from_dict_sync` interface: the serialized combatants (in
`get_combatants(groups=False)` order) and the optional current-turn
combatant. -/
structure CombatData where
  combatants : List RawActor
  current : Option RawActor
deriving DecidableEq, Repr

mutual

/-- A node of the tagged resolution tree (`automation_result`), one
constructor per recognized `match` case of `stringify` plus `unknown` for
every unrecognized shape. -/
inductive RNode where
  | root (children : RNodeList)
  | condition (children : RNodeList)
  | spell (children : RNodeList)
  | target (results : RNodeList)
  | tiSelf (results : RNodeList)
  | tiIdx (idx : Nat) (results : RNodeList)
  | attack (hit : Bool) (crit : Bool) (children : RNodeList)
  | save (ability : String) (success : Bool) (children : RNodeList)
  | damage (amount : Int)
  | temphp (amount : Int)
  | ieffect (effectName : String)
  | removeIeffect (effectName : String)
  | check (skillName : String) (success : Bool) (contestSkillName : Option String)
      (children : RNodeList)
  | unknown
deriving DecidableEq, Repr

/-- A list of resolution-tree nodes (a `children` / `results` array). -/
inductive RNodeList where
  | nil
  | cons (x : RNode) (xs : RNodeList)
deriving DecidableEq, Repr

end

/-- Append of node lists (used to state elision properties). -/
def RNodeList.append : RNodeList → RNodeList → RNodeList
  | .nil, ys => ys
  | .cons x xs, ys => .cons x (RNodeList.append xs ys)

/-- An embed attached to a message event; `title`/`fields` are `none` when
the corresponding dict key is absent. -/
structure Embed where
  title : Option String
  fields : Option (List String)
deriving DecidableEq, Repr

/-- One event of the session log, as a flat record over the union of the
payload fields the distill4 code reads.  A Python event dict only carries the
keys of its own kind; fields of other kinds hold default values here. -/
structure Ev where
  eventType : String
  messageId : Int
  authorId : Int
  authorName : String
  authorBot : Bool
  content : String
  embeds : List Embed
  caster : Option RawActor
  targets : List TargetRef
  automationResult : RNode
  interactionId : Int
  combatData : CombatData
  prefixOfCommand : String
  snippetName : String
  contentAfter : String
deriving DecidableEq, Repr

/-- The flat reconstructed actor record returned by `normalize_actor`. -/
structure ActorRecord where
  name : String
  hp : String
  classLabel : Option String
  race : Option String
  attacks : String
  spells : String
  actions : Option String
  effects : String
  description : Option String
  controllerId : String
deriving DecidableEq, Repr

/-! ## hp display string (`normalize_actor`, numeric-HP part) -/

/-- The numeric-HP segment of the hp display string
(`distill4_normalize.py` lines 166-183): `"hp/max_hp HP"` plus the health
band computed from `ratio = hp / max_hp` only when `max_hp > 0`, or
`"hp HP"` when only hp is known, or `""`. -/
def hp_numeric_string (hp maxHp : Option Int) : String :=
  match hp, maxHp with
  | some h, some m =>
      let base := toString h ++ "/" ++ toString m ++ " HP"
      if 0 < m then
        let ratio : ℚ := (h : ℚ) / (m : ℚ)
        if 1 ≤ ratio then base ++ "; Healthy"
        else if 0.5 < ratio ∧ ratio < 1 then base ++ "; Injured"
        else if 0.15 < ratio ∧ ratio ≤ 0.5 then base ++ "; Bloodied"
        else if 0 < ratio ∧ ratio ≤ 0.15 then base ++ "; Critical"
        else if ratio ≤ 0 then base ++ "; Dead"
        else base
      else base
  | some h, none => toString h ++ " HP"
  | none, _ => ""

/-- The full hp display string: numeric segment wrapped in angle brackets
when non-empty, plus the temp-HP suffix when `temp_hp` is truthy and
positive (`distill4_normalize.py` lines 166-190). -/
def hp_display (hp maxHp tempHp : Option Int) : String :=
  let hpStr := hp_numeric_string hp maxHp
  let hpStr := if hpStr = "" then hpStr else "<" ++ hpStr ++ ">"
  match tempHp with
  | some t => if 0 < t then hpStr ++ " (+" ++ toString t ++ " temp)" else hpStr
  | none => hpStr

/-- The health-band suffix as the spec's words describe it (used as the
refinement target for the banding claim): a band only when `max_hp > 0`;
ratio ≥ 1 Healthy; 0.5 < ratio < 1 Injured; 0.15 < ratio ≤ 0.5 Bloodied;
0 < ratio ≤ 0.15 Critical; ratio ≤ 0 Dead. -/
def claim_health_band (h m : Int) : String :=
  if 0 < m then
    let r : ℚ := (h : ℚ) / (m : ℚ)
    if 1 ≤ r then "; Healthy"
    else if 0.5 < r ∧ r < 1 then "; Injured"
    else if 0.15 < r ∧ r ≤ 0.5 then "; Bloodied"
    else if 0 < r ∧ r ≤ 0.15 then "; Critical"
    else "; Dead"
  else ""

/-! ## `normalize_actor` (display-record part) -/

/-- The prepared spell names of a combatant
(`s.name for s in combatant.spellbook.spells if s.prepared`). -/
def prepared_spell_names (c : Combatant) : List String :=
  (c.base.spells.filter (fun s => s.2)).map (fun s => s.1)

/-- The display record built by `normalize_actor`
(`distill4_normalize.py` lines 146-203) from a materialized combatant.
Python's `set(...)` has unspecified iteration order; the de-duplicated joins
(`spells`, player `actions`) are modelled with `List.dedup` (one duplicate of
each name kept). -/
def normalize_actor (c : Combatant) : ActorRecord :=
  let effects := String.intercalate ", " c.base.effects
  let attacks := String.intercalate ", " c.base.attacks
  let spells := String.intercalate ", " (prepared_spell_names c).dedup
  let rcda : Option String × Option String × Option String × Option String :=
    match c.kind with
    | .player ch =>
        (some ch.race, some ch.levels, some ch.description,
          some (String.intercalate ", " ch.actions.dedup))
    | .monster n => (some n, none, none, none)
    | .group => (some "Group", none, none, none)
    | .basic => (none, none, none, none)
  { name := c.base.name
    hp := hp_display c.base.hp c.base.maxHp c.base.tempHp
    classLabel := rcda.2.1
    race := rcda.1
    attacks := attacks
    spells := spells
    actions := rcda.2.2.2
    effects := effects
    description := rcda.2.2.1
    controllerId := toString c.base.controllerId }

/-! ## Concrete combatants used by witnesses/counterexamples -/

/-- A monster-derived combatant (decoded `MonsterCombatant`). -/
def goblinCombatant : Combatant :=
  { base := { name := "Goblin", hp := some 7, maxHp := some 7, tempHp := none,
              effects := [], attacks := ["Scimitar"], spells := [], controllerId := 0 }
    kind := .monster "Goblin" }

/-- A combatant whose attack and effect lists repeat a name. -/
def biterCombatant : Combatant :=
  { base := { name := "Biter", hp := none, maxHp := none, tempHp := none,
              effects := ["Poisoned", "Poisoned"], attacks := ["Bite", "Bite"],
              spells := [], controllerId := 0 }
    kind := .basic }

/-- A player character with a duplicated action name. -/
def wizardCharacter : Character :=
  { race := "Elf", levels := "Wizard 3", description := "studious",
    actions := ["Dash", "Dash", "Dodge"] }

/-- A player-derived combatant bound to `wizardCharacter`. -/
def wizardCombatant : Combatant :=
  { base := { name := "Tim", hp := some 7, maxHp := some 10, tempHp := some 2,
              effects := [], attacks := ["Dagger"],
              spells := [("Fire Bolt", true), ("Fire Bolt", true), ("Sleep", false)],
              controllerId := 42 }
    kind := .player wizardCharacter }

/-! ## Claim C1: health banding boundaries -/

/-! ## Claim C3: class/race/description/actions population -/

/-! ## Claim C4: joined name lists and de-duplication -/

/-! ## String helpers (Python `re.sub`, `in`, `str.title`) -/

/-- Python `\w` (ASCII part): letters, digits, underscore. -/
def is_word_char (c : Char) : Bool := c.isAlphanum || c = '_'

/-- Leftmost match of the mention pattern `<(@[!&]?|#)\d{17,20}>` at the head
of a character list; returns the characters after the match. -/
def mention_match (l : List Char) : Option (List Char) :=
  match l with
  | '<' :: r1 =>
      let r2 : Option (List Char) :=
        match r1 with
        | '@' :: '!' :: r => some r
        | '@' :: '&' :: r => some r
        | '@' :: r => some r
        | '#' :: r => some r
        | _ => none
      match r2 with
      | none => none
      | some rest =>
          let k := (rest.takeWhile (fun c => c.isDigit)).length
          if 17 ≤ k ∧ k ≤ 20 then
            match rest.drop k with
            | '>' :: tail => some tail
            | _ => none
          else none
  | _ => none

/-- Leftmost match of the custom-emoji pattern `<a?(:\w+?:)\d{17,20}>` at the
head of a character list; returns the group-1 name (without colons) and the
characters after the match. -/
def emoji_match (l : List Char) : Option (List Char × List Char) :=
  match l with
  | '<' :: r1 =>
      let r2 : Option (List Char) :=
        match r1 with
        | ':' :: r => some r
        | 'a' :: ':' :: r => some r
        | _ => none
      match r2 with
      | none => none
      | some r =>
          let nm := r.takeWhile is_word_char
          if nm.length = 0 then none
          else
            match r.drop nm.length with
            | ':' :: r3 =>
                let k := (r3.takeWhile (fun c => c.isDigit)).length
                if 17 ≤ k ∧ k ≤ 20 then
                  match r3.drop k with
                  | '>' :: tail => some (nm, tail)
                  | _ => none
                else none
            | _ => none
  | _ => none

/-- Left-to-right non-overlapping substitution scan deleting every mention
match (`re.sub(..., "", content)`); `fuel` bounds the scan and is
instantiated with the content length (each step consumes at least one
character, so that fuel is always sufficient). -/
def strip_mentions_go : Nat → List Char → List Char
  | 0, cs => cs
  | fuel + 1, cs =>
      match cs with
      | [] => []
      | c :: rest =>
          match mention_match (c :: rest) with
          | some tail => strip_mentions_go fuel tail
          | none => c :: strip_mentions_go fuel rest

/-- `re.sub(r"<(@[!&]?|#)\d{17,20}>", "", content)`. -/
def strip_mentions (s : String) : String :=
  String.mk (strip_mentions_go s.data.length s.data)

/-- Left-to-right non-overlapping substitution scan replacing every
custom-emoji match with its `":name:"` group (`re.sub(..., r"\1", content)`). -/
def collapse_emoji_go : Nat → List Char → List Char
  | 0, cs => cs
  | fuel + 1, cs =>
      match cs with
      | [] => []
      | c :: rest =>
          match emoji_match (c :: rest) with
          | some (nm, tail) => ':' :: (nm ++ ':' :: collapse_emoji_go fuel tail)
          | none => c :: collapse_emoji_go fuel rest

/-- `re.sub(r"<a?(:\w+?:)\d{17,20}>", r"\1", content)`. -/
def collapse_emoji (s : String) : String :=
  String.mk (collapse_emoji_go s.data.length s.data)

/-- Python substring containment `needle in hay` on character lists. -/
def is_substring_chars (needle hay : List Char) : Bool :=
  hay.tails.any (fun t => needle.isPrefixOf t)

/-- Python substring containment `needle in hay`. -/
def is_substring (needle hay : String) : Bool :=
  is_substring_chars needle.data hay.data

/-- Python `str.title()` (ASCII): a letter following a non-letter is
uppercased, a letter following a letter is lowercased. -/
def py_title (s : String) : String :=
  let step := fun (acc : List Char × Bool) (c : Char) =>
    let c2 := if c.isAlpha then (if acc.2 then c.toLower else c.toUpper) else c
    (acc.1 ++ [c2], c.isAlpha)
  String.mk (s.data.foldl step ([], false)).1

/-! ## Event-log lookups -/

/-- Index of the first element satisfying a predicate (the semantics of
Python `next(idx for idx, e in enumerate(...) if ...)` and `list.index`);
`none` when no element matches. -/
def first_index {α : Type} (p : α → Bool) : List α → Option Nat
  | [] => none
  | x :: xs => if p x then some 0 else (first_index p xs).map (· + 1)

/-- `event_index` (`distill4_normalize.py` lines 92-101): for message-kind
events, the index of the first log entry that is a message with the same
`message_id`; for all other kinds, the index of the first log entry equal to
the event (`list.index`).  `none` models the `StopIteration`/`ValueError`
raised when nothing matches. -/
def event_index (events : List Ev) (e : Ev) : Option Nat :=
  if e.eventType = "message" then
    first_index (fun x => x.eventType == "message" && x.messageId == e.messageId) events
  else
    first_index (fun x => x == e) events

/-- Modelled from the spec: `find(predicate, after=, before=)` of the
event-log utility (`heuristics/utils.py`, not under `src/`): the first event
whose index lies in the half-open window `[after, before)` and that satisfies
the predicate, or `none`. -/
def find_window (events : List Ev) (p : Ev → Bool) (afterIdx beforeIdx : Nat) : Option Ev :=
  ((events.drop afterIdx).take (beforeIdx - afterIdx)).find? p

/-- Modelled from the spec: `find(predicate, after=)` with no upper bound. -/
def find_from (events : List Ev) (p : Ev → Bool) (afterIdx : Nat) : Option Ev :=
  (events.drop afterIdx).find? p

/-! ## The resolution-tree stringifier (`stringify_automation_run`) -/

/-- How Python interpolates the `current_target` variable into an f-string:
`None` prints as `"None"`. -/
def ct_show : Option String → String
  | some s => s
  | none => "None"

/-- Spine length of a node list. -/
def RNodeList.length : RNodeList → Nat
  | .nil => 0
  | .cons _ xs => xs.length + 1

mutual

/-- The inner `stringify` closure (`distill4_normalize.py` lines 223-284),
with the mutable `current_target` made an explicit state value: takes the
node and the current state, returns the Python return value (`none` models
the implicit `None` returned for a node matching no case) and the state
after the call.  The `target_iteration` cases save the state, run their
results against the overridden target, and restore the saved state. -/
def stringify (caster : String) (targets : List String) :
    RNode → Option String → Option String × Option String
  | .root children, ct =>
      let p := stringify_collect caster targets children ct
      (some (String.intercalate "\n" p.1), p.2)
  | .condition children, ct =>
      let p := stringify_collect caster targets children ct
      (some (String.intercalate "\n" p.1), p.2)
  | .spell children, ct =>
      let p := stringify_collect caster targets children ct
      (some (String.intercalate "\n" p.1), p.2)
  | .target results, ct =>
      let p := stringify_collect caster targets results ct
      (some (String.intercalate "\n" p.1), p.2)
  | .tiSelf results, ct =>
      let p := stringify_collect caster targets results (some caster)
      (some (String.intercalate "\n" p.1), ct)
  | .tiIdx i results, ct =>
      let p := stringify_collect caster targets results (some (targets.getD i ""))
      (some (String.intercalate "\n" p.1), ct)
  | .attack hit crit children, ct =>
      let p := stringify_collect caster targets children ct
      let base := caster ++ " attacked " ++ ct_show p.2 ++ " " ++
        (if crit then "and crit!" else if hit then "and hit." else "but missed.")
      (some (base ++ "\n" ++ String.intercalate "\n" p.1), p.2)
  | .save ability success children, ct =>
      let p := stringify_collect caster targets children ct
      let base := ct_show p.2 ++ " rolled a " ++ py_title (ability.dropRight 4) ++
        " save " ++ (if success then "and succeeded." else "but failed.")
      (some (base ++ "\n" ++ String.intercalate "\n" p.1), p.2)
  | .damage amount, ct =>
      if amount < 0 then
        (some (ct_show ct ++ " healed for " ++ toString amount ++ " health."), ct)
      else
        (some (ct_show ct ++ " took " ++ toString amount ++ " damage."), ct)
  | .temphp amount, ct =>
      (some (ct_show ct ++ " gained " ++ toString amount ++ " temp HP."), ct)
  | .ieffect nm, ct => (some (ct_show ct ++ " gained " ++ nm ++ "."), ct)
  | .removeIeffect nm, ct => (some (ct_show ct ++ " is no longer " ++ nm ++ "."), ct)
  | .check skill success none children, ct =>
      let p := stringify_collect caster targets children ct
      let base := ct_show p.2 ++ " rolled a " ++ skill ++ " check " ++
        (if success then "and succeeded." else "but failed.")
      (some (base ++ "\n" ++ String.intercalate "\n" p.1), p.2)
  | .check skill success (some contest) children, ct =>
      let p := stringify_collect caster targets children ct
      let base := ct_show p.2 ++ " rolled a " ++ skill ++ " contest against " ++
        caster ++ "\x27s " ++ contest ++ " " ++
        (if success then "and succeeded." else "but failed.")
      (some (base ++ "\n" ++ String.intercalate "\n" p.1), p.2)
  | .unknown, ct => (none, ct)

/-- The inner `stringify_many` closure (lines 216-221), collecting the
truthy (non-`None`, non-empty) renderings of a node list in order while
threading the `current_target` state. -/
def stringify_collect (caster : String) (targets : List String) :
    RNodeList → Option String → List String × Option String
  | .nil, ct => ([], ct)
  | .cons n ns, ct =>
      let p := stringify caster targets n ct
      let q := stringify_collect caster targets ns p.2
      match p.1 with
      | some s => if s = "" then q else (s :: q.1, q.2)
      | none => q

end

/-- `stringify_many`: the newline-join of the collected renderings. -/
def stringify_many (caster : String) (targets : List String)
    (ns : RNodeList) (ct : Option String) : String × Option String :=
  let p := stringify_collect caster targets ns ct
  (String.intercalate "\n" p.1, p.2)

/-- The id of the automation actor (`AVRAE_ID`, from `heuristics.utils`,
not under `src/`; the value is irrelevant to the claims). -/
def AVRAE_ID : Int := 261302296103747584

/-- The embed-message predicate of `stringify_automation_run`
(lines 291-301): a message by the automation actor with empty content and
exactly one embed having a title and fields, whose title contains the caster
name or whose field-name set is a superset of the target names. -/
def embed_matches (caster : String) (targetNames : List String) (e : Ev) : Bool :=
  e.eventType == "message" && e.authorId == AVRAE_ID && e.content == "" &&
  e.embeds.length == 1 &&
  (match e.embeds with
   | [em] => em.title.isSome && em.fields.isSome &&
       (is_substring caster (em.title.getD "") ||
        targetNames.all (fun t => (em.fields.getD []).contains t))
   | _ => false)

/-- `stringify_automation_run` (lines 205-310): renders the automation
result tree of an event and locates the associated embed message.
`Except.error .typeError` models the `TypeError` raised when the event's
caster is `None` (line 211) or when the tree's root matches no `stringify`
case, so that `embed_title + automation_str` concatenates a string with
`None` (line 310); `.error .keyError` models the `KeyError` of
`message_groups_by_id[...]` when no event carries the interaction id. -/
def stringify_automation_run (events : List Ev) (e : Ev) : Except Err (String × Option Ev) :=
  match e.caster with
  | none => .error .typeError
  | some rawc =>
      let caster := rawc.name
      let targetNames := e.targets.map TargetRef.displayName
      let autoStr := (stringify caster targetNames e.automationResult none).1
      match first_index (fun x => x.interactionId == e.interactionId) events with
      | none => .error .keyError
      | some gidx =>
          let embedEvent := find_from events (embed_matches caster targetNames) gidx
          let embedTitle :=
            match embedEvent with
            | none => ""
            | some ev =>
                (match ev.embeds with
                 | [em] => em.title.getD ""
                 | _ => "") ++ "\n"
          match autoStr with
          | none => .error .typeError
          | some s => .ok (embedTitle ++ s, embedEvent)

/-! ## Claim C2: target-iteration context isolation -/

/-! ## Claim C9: unrecognized node shapes -/

/-- A concrete automation-run event whose resolution tree's root is a node
of unrecognized shape. -/
def unknownRunEvent : Ev :=
  { eventType := "automation_run", messageId := 0, authorId := 5,
    authorName := "B", authorBot := true, content := "", embeds := [],
    caster := some (RawActor.monster "Goblin" goblinCombatant.base),
    targets := [], automationResult := .unknown, interactionId := 9,
    combatData := ⟨[], none⟩, prefixOfCommand := "", snippetName := "",
    contentAfter := "" }

/-! ## `normalize_message` -/

/-- The proxy-duplicate candidate predicate of `normalize_message`
(lines 317-325): a message by a different author, flagged as automated
(`author_bot`, default true), whose content is non-empty and a substring of
the current message's (pre-strip) content. -/
def proxy_pred (msg : Ev) : Ev → Bool := fun e =>
  e.eventType == "message" && e.authorId != msg.authorId &&
  is_substring e.content msg.content && e.content != "" && e.authorBot

/-- The dedup length ratio `len(similar_content) / len(content)` as an exact
rational. -/
def len_ratio (sim msg : Ev) : ℚ :=
  (sim.content.length : ℚ) / (msg.content.length : ℚ)

/-- `normalize_message` (`distill4_normalize.py` lines 313-347): proxy
(Tupper) duplicate resolution against the next 16 log positions first, then
mention stripping, then custom-emoji collapsing, then optional author
attribution.  `none` models the `StopIteration` of `event_index` when the
message is not in the log. -/
def normalize_message (events : List Ev) (msg : Ev) (includeAuthorName : Bool) :
    Option String :=
  match event_index events msg with
  | none => none
  | some msgIdx =>
      let content := msg.content
      let content :=
        match find_window events (proxy_pred msg) msgIdx (msgIdx + 16) with
        | some sim =>
            if 0.7 < len_ratio sim msg ∧ len_ratio sim msg < 1 then sim.content
            else content
        | none => content
      let content := strip_mentions content
      let content := collapse_emoji content
      some (if includeAuthorName then msg.authorName ++ ": " ++ content else content)

/-! ## Claim C6: position lookup -/

/-- C6 witness input: a message event as appended to the log. -/
def msgOriginal : Ev :=
  { eventType := "message", messageId := 7, authorId := 1, authorName := "N",
    authorBot := false, content := "hi", embeds := [], caster := none,
    targets := [], automationResult := .unknown, interactionId := 0,
    combatData := ⟨[], none⟩, prefixOfCommand := "", snippetName := "",
    contentAfter := "" }

/-- C6 witness input: a structural replacement of `msgOriginal` (deep-copied
and field-mutated by an upstream stage) sharing its ordering key. -/
def msgReplaced : Ev :=
  { msgOriginal with content := "hi (edited)", authorName := "N2" }

/-! ## Claims C7/C8: normalize_message ordering and dedup ratio -/

/-- A default event record (Python dicts carry only their own kind's keys;
unused fields hold these defaults). -/
def baseEv : Ev :=
  { eventType := "", messageId := 0, authorId := 0, authorName := "",
    authorBot := false, content := "", embeds := [], caster := none,
    targets := [], automationResult := .unknown, interactionId := 0,
    combatData := ⟨[], none⟩, prefixOfCommand := "", snippetName := "",
    contentAfter := "" }

/-- A user message containing mention markup, shadowed by a proxy bot. -/
def proxyOrig : Ev :=
  { baseEv with
      eventType := "message"
      messageId := 1
      authorId := 10
      content := "<@12345678901234567> hello there friend" }

/-- The proxy bot's near-duplicate of `proxyOrig` (a strict substring,
length ratio strictly between 0.7 and 1), still containing the mention
markup. -/
def proxyCand : Ev :=
  { baseEv with
      eventType := "message"
      messageId := 2
      authorId := 11
      authorBot := true
      content := "<@12345678901234567> hello there frien" }

/-- The two-message log for the proxy scenario. -/
def proxyEvents : List Ev := [proxyOrig, proxyCand]

/-- A user message duplicated verbatim by a bot (length ratio exactly 1). -/
def proxyOrig2 : Ev :=
  { baseEv with
      eventType := "message"
      messageId := 1
      authorId := 10
      content := "hello there" }

/-- A bot message with identical content to `proxyOrig2`. -/
def proxyCand2 : Ev :=
  { baseEv with
      eventType := "message"
      messageId := 2
      authorId := 11
      authorBot := true
      content := "hello there" }

/-- The two-message log for the ambiguous-ratio scenario. -/
def proxyEvents2 : List Ev := [proxyOrig2, proxyCand2]

/-! ## Session state, character cache, and `process_triple` infrastructure -/

/-- The session character cache: a Python dict keyed by
`(owner, upstream_id)`, as an association list with overwrite-on-insert. -/
abbrev Cache : Type := List ((Int × Int) × Character)

/-- Dict assignment `self.characters[(owner, upstream)] = character`. -/
def cache_insert (k : Int × Int) (v : Character) : Cache → Cache
  | [] => [(k, v)]
  | (k2, v2) :: rest =>
      if k2 = k then (k, v) :: rest else (k2, v2) :: cache_insert k v rest

/-- Dict lookup `self.characters.get(key)`. -/
def cache_lookup (k : Int × Int) : Cache → Option Character
  | [] => none
  | (k2, v) :: rest => if k2 = k then some v else cache_lookup k rest

/-- `_extract_character_from_event` (lines 103-111): on a `command` or
`automation_run` event whose caster payload carries an `upstream` key (a raw
player-character payload), cache its character detail under
`(owner, upstream)`. -/
def extract_character (chars : Cache) (e : Ev) : Cache :=
  if e.eventType = "command" ∨ e.eventType = "automation_run" then
    match e.caster with
    | some (.character owner upstream ch _) => cache_insert (owner, upstream) ch chars
    | _ => chars
  else chars

/-- `extract_characters_forward` (lines 113-117): extract from all events
strictly before index `idx`. -/
def extract_characters_forward (events : List Ev) (chars : Cache) (idx : Nat) : Cache :=
  (events.take idx).foldl extract_character chars

/-- `extract_characters_backward` (lines 119-123): extract from all events
strictly after index `idx`, in reverse log order (`events[:idx:-1]`). -/
def extract_characters_backward (events : List Ev) (chars : Cache) (idx : Nat) : Cache :=
  ((events.drop (idx + 1)).reverse).foldl extract_character chars

/-- The avrae decode of one serialized/raw combatant
(`deserialize_combatant_sync` and the promotions of `normalize_actor`,
lines 126-144): a raw player payload or monster template is promoted
directly; a serialized `PlayerCombatant` resolves its full character through
the session cache and raises `NoCharacter` on a miss (the monkey-patched
`PlayerCombatant.from_dict`, lines 76-90). -/
def materialize_combatant (chars : Cache) : RawActor → Except Err Combatant
  | .character _ _ ch b => .ok ⟨b, .player ch⟩
  | .monster n b => .ok ⟨b, .monster n⟩
  | .serialized b .basic => .ok ⟨b, .basic⟩
  | .serialized b (.monster n) => .ok ⟨b, .monster n⟩
  | .serialized b .group => .ok ⟨b, .group⟩
  | .serialized b (.player owner upstream) =>
      match cache_lookup (owner, upstream) chars with
      | some ch => .ok ⟨b, .player ch⟩
      | none => .error .noCharacter

/-- `normalize_actor` applied to a raw actor payload (dispatch + display
record). -/
def normalize_actor_raw (chars : Cache) (a : RawActor) : Except Err ActorRecord :=
  (materialize_combatant chars a).map normalize_actor

/-- `Combat.from_dict_sync` at its interface: materialize the state's
serialized combatants (`get_combatants(groups=False)`) and the current-turn
combatant. -/
def decode_combat (chars : Cache) (cd : CombatData) :
    Except Err (List Combatant × Option Combatant) :=
  match cd.combatants.mapM (materialize_combatant chars) with
  | .error er => .error er
  | .ok cs =>
      match cd.current with
      | none => .ok (cs, none)
      | some cur => (materialize_combatant chars cur).map (fun c => (cs, some c))

/-- Stable insertion into a list sorted by message id (insert after existing
entries with a key not exceeding the new one). -/
def insert_by_id (e : Ev) : List Ev → List Ev
  | [] => [e]
  | x :: xs =>
      if x.messageId ≤ e.messageId then x :: insert_by_id e xs
      else e :: x :: xs

/-- Python's stable `list.sort(key=lambda m: int(m["message_id"]))`. -/
def sort_by_message_id (l : List Ev) : List Ev :=
  l.foldl (fun acc e => insert_by_id e acc) []

/-- Modelled from the spec: the interaction ids present in a log, in order
of first occurrence (grouping key order of `Instance.message_groups`,
`heuristics/utils.py`, not under `src/`). -/
def interaction_keys (events : List Ev) : List Int :=
  events.foldl
    (fun acc e => if acc.contains e.interactionId then acc else acc ++ [e.interactionId]) []

/-- Modelled from the spec: `Instance.message_groups` — partition the events
into ordered groups by interaction id, with total coverage and log order
preserved inside each group. -/
def group_by_interaction (events : List Ev) : List (List Ev) :=
  (interaction_keys events).map (fun k => events.filter (fun e => e.interactionId == k))

/-- Replace the first occurrence of `pat` in a character list
(Python `str.replace(pat, repl, 1)`). -/
def replace_first_chars (pat repl : List Char) : List Char → List Char
  | [] => []
  | c :: cs =>
      if pat.isPrefixOf (c :: cs) then repl ++ (c :: cs).drop pat.length
      else c :: replace_first_chars pat repl cs

/-- Python `content.replace(prefix, "!", 1)`: only the first occurrence is
replaced; an empty pattern inserts at the front. -/
def replace_first (s pat repl : String) : String :=
  if pat = "" then String.mk (repl.data ++ s.data)
  else String.mk (replace_first_chars pat.data repl.data s.data)

/-- Naive whitespace tokenization (Python `str.split()`); stands in for the
avrae `argsplit` shell-quoting tokenizer, an external collaborator whose
quoting behavior none of the claims depend on. -/
def py_whitespace_split (s : String) : List String :=
  (s.split (fun c => c == ' ' || c == '\n' || c == '\t')).filter (fun w => w ≠ "")

/-- Replace the first token equal to `nm` with `repl` (the inner
`for idx, word ... break` loop of snippet resolution). -/
def replace_first_token (nm repl : String) : List String → List String
  | [] => []
  | w :: ws => if w = nm then repl :: ws else w :: replace_first_token nm repl ws

/-- `normalize_command_group` (lines 349-375): locate the group's command
event (`none` when absent), canonicalize the prefix, then expand snippet
resolutions token-wise. -/
def normalize_command_group (g : List Ev) : Option String :=
  match g.find? (fun e => e.eventType == "command") with
  | none => none
  | some cmd =>
      let content := replace_first cmd.content cmd.prefixOfCommand "!"
      let snippets := g.filter (fun e => e.eventType == "snippet_resolution")
      if snippets.isEmpty then some content
      else
        let ws := py_whitespace_split content
        let ws := snippets.foldl
          (fun ws s => replace_first_token s.snippetName s.contentAfter ws) ws
        some (String.intercalate " " ws)

/-- Modelled from the spec: `combat_state_at_event` (`heuristics/utils.py`,
not under `src/`): the combat-state snapshot at-or-before the given event —
the last `combat_state_update` at an index not beyond the event's index.
The error is the `StopIteration` of the inner position lookup. -/
def combat_state_at_event (events : List Ev) (e : Ev) : Except Err (Option Ev) :=
  match event_index events e with
  | none => .error .stopIteration
  | some i =>
      .ok (((events.take (i + 1)).filter
        (fun x => x.eventType == "combat_state_update")).getLast?)

/-- Modelled from the spec: `combat_state_after_event`
(`heuristics/utils.py`, not under `src/`): the nearest
`combat_state_update` strictly after the given event, or `none`. -/
def combat_state_after_event (events : List Ev) (e : Ev) : Except Err (Option Ev) :=
  match event_index events e with
  | none => .error .stopIteration
  | some i =>
      .ok (find_from events (fun x => x.eventType == "combat_state_update") (i + 1))

/-- The target-collection loop of `process_triple` (lines 432-440): walk the
targets of the span's automation runs in order; a bare-string target
discards the whole triple (`.ok none`); otherwise reconstruct and
de-duplicate by record equality. -/
def collect_targets (chars : Cache) :
    List TargetRef → List ActorRecord → Except Err (Option (List ActorRecord))
  | [], acc => .ok (some acc)
  | .str _ :: _, _ => .ok none
  | .actor r :: rest, acc =>
      match normalize_actor_raw chars r with
      | .error er => .error er
      | .ok a => collect_targets chars rest (if acc.contains a then acc else acc ++ [a])

/-- Option-to-Except lifting for fallible Python expressions. -/
def req {α : Type} (er : Err) : Option α → Except Err α
  | some a => .ok a
  | none => .error er

/-- One automation run's narration plus the position of its aligned embed
message (the loop body of lines 445-448). -/
def run_and_index (events : List Ev) (e : Ev) : Except Err (String × Option Nat) :=
  match stringify_automation_run events e with
  | .error er => .error er
  | .ok (s, embedEvent) =>
      match embedEvent with
      | none => .ok (s, none)
      | some ev =>
          match event_index events ev with
          | none => .error .valueError
          | some i => .ok (s, some i)

/-- The output record of `process_triple` (module docstring and
lines 470-490). -/
structure Record where
  speakerId : String
  beforeUtterances : List String
  combatStateBefore : List ActorRecord
  currentActor : Option ActorRecord
  commandsNorm : List String
  automationResults : List String
  casterAfter : ActorRecord
  targetsAfter : List ActorRecord
  combatStateAfter : List ActorRecord
  afterUtterances : List String
  utteranceHistory : List String
  beforeIdxs : List Nat
  beforeStateIdx : Nat
  commandIdxs : List Nat
  afterStateIdx : Nat
  afterIdxs : List Nat
  embedIdxs : List (Option Nat)
deriving DecidableEq, Repr

/-- The session-scoped state of `Distill4Inst`: the event log and the
mutable character cache and rolling utterance history. -/
structure SessState where
  events : List Ev
  characters : Cache
  utteranceHistory : List Ev
deriving Repr

/-- One input triple. -/
structure Triple where
  before : List Ev
  commands : List Ev
  after : List Ev
deriving Repr

/-- `process_triple` (`distill4_normalize.py` lines 377-490), the main per-
triple entrypoint, over explicit session state.  `.ok (st, none)` models the
two `return None` discard sites (string-typed target, line 437; missing
terminal combat state, line 457); `.error er` models an exception escaping
the triple (caught and logged by the caller); `.ok (st, some record)` is the
assembled output record.  The avrae `argsplit` and `Combat.from_dict_sync`
collaborators are modelled at their interfaces (see
`py_whitespace_split` / `decode_combat`); the `assert` of line 404 is a
tautology of the grouping model and is omitted. -/
def process_triple (st : SessState) (t : Triple) : Except Err (SessState × Option Record) :=
  let hist1 := sort_by_message_id (st.utteranceHistory ++ t.before)
  let st1 : SessState := { st with utteranceHistory := hist1 }
  let before := if t.before.length > 5 then [] else t.before
  let after := if t.after.length > 5 then [] else t.after
  match t.commands.head? with
  | none => .error .indexError
  | some cmd0 =>
    let speakerId := toString cmd0.authorId
    match before.mapM (fun m => req Err.stopIteration (normalize_message st1.events m false)) with
    | .error er => .error er
    | .ok beforeUtterances =>
      match after.mapM (fun m => req Err.stopIteration (normalize_message st1.events m false)) with
      | .error er => .error er
      | .ok afterUtterances =>
        match (hist1.drop (hist1.length - 5)).mapM
            (fun m => req Err.stopIteration (normalize_message st1.events m true)) with
        | .error er => .error er
        | .ok utteranceHistory5 =>
          let commandsNorm := (group_by_interaction t.commands).filterMap
            (fun g => match normalize_command_group g with
                      | some s => if s = "" then none else some s
                      | none => none)
          match event_index st1.events cmd0 with
          | none => .error .stopIteration
          | some cmd0Idx =>
            let st2 : SessState :=
              { st1 with characters := extract_characters_forward st1.events st1.characters cmd0Idx }
            match combat_state_at_event st2.events cmd0 with
            | .error er => .error er
            | .ok none => .error .typeError
            | .ok (some combatStateBefore) =>
              match event_index st2.events combatStateBefore with
              | none => .error .valueError
              | some beforeStateIdx =>
                match decode_combat st2.characters combatStateBefore.combatData with
                | .error er => .error er
                | .ok (combatantsBefore, currentBefore) =>
                  let actorListBefore := combatantsBefore.map normalize_actor
                  let currentActor := currentBefore.map normalize_actor
                  let autoRuns := t.commands.filter (fun e => e.eventType == "automation_run")
                  match autoRuns with
                  | [] => .error .nameError
                  | _ :: _ =>
                    match autoRuns.findSome? (fun e => e.caster) with
                    | none => .error .typeError
                    | some rawCaster =>
                      match normalize_actor_raw st2.characters rawCaster with
                      | .error er => .error er
                      | .ok casterNorm =>
                        match collect_targets st2.characters
                            (autoRuns.map (fun e => e.targets)).flatten [] with
                        | .error er => .error er
                        | .ok none => .ok (st2, none)
                        | .ok (some targetsAfter) =>
                          match autoRuns.mapM (run_and_index st2.events) with
                          | .error er => .error er
                          | .ok autoResults =>
                            match t.commands.getLast? with
                            | none => .error .indexError
                            | some cmdLast =>
                              match event_index st2.events cmdLast with
                              | none => .error .stopIteration
                              | some lastIdx =>
                                let st3 : SessState :=
                                  { st2 with characters :=
                                      extract_characters_backward st2.events st2.characters lastIdx }
                                let lastUpdateE : Except Err (Option Ev) :=
                                  match (t.commands.filter
                                      (fun e => e.eventType == "combat_state_update")).getLast? with
                                  | some u => .ok (some u)
                                  | none => combat_state_after_event st3.events cmdLast
                                match lastUpdateE with
                                | .error er => .error er
                                | .ok none => .ok (st3, none)
                                | .ok (some lastCombatUpdate) =>
                                  match event_index st3.events lastCombatUpdate with
                                  | none => .error .valueError
                                  | some afterStateIdx =>
                                    match decode_combat st3.characters lastCombatUpdate.combatData with
                                    | .error er => .error er
                                    | .ok (combatantsAfter, _currentAfter) =>
                                      let hist2 := sort_by_message_id (st3.utteranceHistory ++ t.after)
                                      let st4 : SessState := { st3 with utteranceHistory := hist2 }
                                      match before.mapM (event_index st4.events) with
                                      | none => .error .stopIteration
                                      | some beforeIdxs =>
                                        match t.commands.mapM (event_index st4.events) with
                                        | none => .error .valueError
                                        | some commandIdxs =>
                                          match after.mapM (event_index st4.events) with
                                          | none => .error .stopIteration
                                          | some afterIdxs =>
                                            .ok (st4, some
                                              { speakerId := speakerId
                                                beforeUtterances := beforeUtterances
                                                combatStateBefore := actorListBefore
                                                currentActor := currentActor
                                                commandsNorm := commandsNorm
                                                automationResults := autoResults.map (fun p => p.1)
                                                casterAfter := casterNorm
                                                targetsAfter := targetsAfter
                                                combatStateAfter := combatantsAfter.map normalize_actor
                                                afterUtterances := afterUtterances
                                                utteranceHistory := utteranceHistory5
                                                beforeIdxs := beforeIdxs
                                                beforeStateIdx := beforeStateIdx
                                                commandIdxs := commandIdxs
                                                afterStateIdx := afterStateIdx
                                                afterIdxs := afterIdxs
                                                embedIdxs := autoResults.map (fun p => p.2) })

/-- A `combat_state_update` event preceding the witness command span. -/
def wCsu : Ev :=
  { baseEv with
      eventType := "combat_state_update"
      messageId := 100 }

/-- The witness command event. -/
def wCmd : Ev :=
  { baseEv with
      eventType := "command"
      messageId := 101
      authorId := 7
      content := "!attack goblin"
      prefixOfCommand := "!"
      interactionId := 50 }

/-- The witness automation-run event whose sole target is a bare string. -/
def wRun : Ev :=
  { baseEv with
      eventType := "automation_run"
      messageId := 102
      caster := some (RawActor.monster "Goblin" goblinCombatant.base)
      targets := [TargetRef.str "orc"]
      interactionId := 50 }

/-- The witness session state. -/
def wState : SessState :=
  { events := [wCsu, wCmd, wRun], characters := [], utteranceHistory := [] }

/-- The witness triple: empty chat windows, one command plus one automation
run with a bare-string target. -/
def wTriple : Triple := { before := [], commands := [wCmd, wRun], after := [] }

/-! ## Theorems settling the claims -/
/-- C1: for every combatant whose hp and max_hp are both known, the numeric
hp display string is `"hp/max_hp HP"` followed by a health band suffix that
is computed only when `max_hp > 0` and uses exactly the claimed boundaries:
ratio ≥ 1 Healthy; 0.5 < ratio < 1 Injured; 0.15 < ratio ≤ 0.5 Bloodied
(so ratio exactly 0.5 is Bloodied, not Injured); 0 < ratio ≤ 0.15 Critical
(so ratio exactly 0.15 is Critical); ratio ≤ 0 Dead (so ratio exactly 0 is
Dead); and when `max_hp = 0` (or negative) no band is appended at all. -/
theorem hp_banding_matches_spec (h m : Int) :
    hp_numeric_string (some h) (some m)
      = (toString h ++ "/" ++ toString m ++ " HP") ++ claim_health_band h m := by
  unfold hp_numeric_string claim_health_band
  dsimp only
  split_ifs with hm h1 h2 h3 h4 h5 <;>
    first
      | rfl
      | simp
      | (exfalso; push_neg at h1 h2 h3 h4 h5
         exact absurd (h2 (h3 (h4 h5))) (not_le.mpr h1))

/-- C3 counterexample: a monster-derived combatant's `race` field is the
monster's name, not null (the claim asserts it is null). -/
theorem monster_race_not_null :
    (normalize_actor goblinCombatant).race = some "Goblin" ∧
    (normalize_actor goblinCombatant).race ≠ none := by
  constructor
  · rfl
  · decide

/-- C3 amended: `class`/`description`/`actions` are populated only for
player-derived combatants; `race` is populated for player-derived combatants
(the character's race), for monster-derived combatants (the monster's name),
and is the literal `"Group"` for group-type entities; all four fields are
null for every other combatant. -/
theorem actor_kind_fields (c : Combatant) :
    (c.kind = .basic →
      (normalize_actor c).race = none ∧ (normalize_actor c).classLabel = none ∧
      (normalize_actor c).description = none ∧ (normalize_actor c).actions = none) ∧
    (∀ ch, c.kind = .player ch →
      (normalize_actor c).race = some ch.race ∧
      (normalize_actor c).classLabel = some ch.levels ∧
      (normalize_actor c).description = some ch.description ∧
      (normalize_actor c).actions = some (String.intercalate ", " ch.actions.dedup)) ∧
    (∀ n, c.kind = .monster n →
      (normalize_actor c).race = some n ∧ (normalize_actor c).classLabel = none ∧
      (normalize_actor c).description = none ∧ (normalize_actor c).actions = none) ∧
    (c.kind = .group →
      (normalize_actor c).race = some "Group" ∧ (normalize_actor c).classLabel = none ∧
      (normalize_actor c).description = none ∧ (normalize_actor c).actions = none) := by
  obtain ⟨b, k⟩ := c
  cases k <;> simp [normalize_actor]

/-- C3 witness: the amended population rule evaluated on a concrete
player-derived combatant. -/
theorem actor_kind_fields_witness :
    (normalize_actor wizardCombatant).race = some "Elf" ∧
    (normalize_actor wizardCombatant).classLabel = some "Wizard 3" ∧
    (normalize_actor wizardCombatant).description = some "studious" ∧
    (normalize_actor wizardCombatant).actions
      = some (String.intercalate ", " (["Dash", "Dash", "Dodge"] : List String).dedup) :=
  (actor_kind_fields wizardCombatant).2.1 wizardCharacter rfl

/-- C4 counterexample: the `attacks` and `effects` fields are plain
comma-joins with duplicates retained (the claim asserts set-semantics
de-duplication for all four of attacks/spells/actions/effects). -/
theorem attacks_effects_keep_duplicates :
    (normalize_actor biterCombatant).attacks = "Bite, Bite" ∧
    (normalize_actor biterCombatant).effects = "Poisoned, Poisoned" :=
  ⟨rfl, rfl⟩

/-- C4 amended: `spells` (and, for player-derived combatants, `actions`) are
comma-joined de-duplicated name lists — the joined list is duplicate-free and
has exactly the underlying names as members — while `attacks` and `effects`
are comma-joined in order with duplicates retained; each join of an empty
list is the empty string. -/
theorem joined_name_lists (c : Combatant) :
    (normalize_actor c).attacks = String.intercalate ", " c.base.attacks ∧
    (normalize_actor c).effects = String.intercalate ", " c.base.effects ∧
    (∃ l : List String, l.Nodup ∧ (∀ s, s ∈ l ↔ s ∈ prepared_spell_names c) ∧
      (normalize_actor c).spells = String.intercalate ", " l) ∧
    (∀ ch, c.kind = .player ch →
      ∃ l : List String, l.Nodup ∧ (∀ s, s ∈ l ↔ s ∈ ch.actions) ∧
        (normalize_actor c).actions = some (String.intercalate ", " l)) := by
  refine ⟨rfl, rfl,
    ⟨(prepared_spell_names c).dedup, List.nodup_dedup _,
      fun s => List.mem_dedup, rfl⟩, ?_⟩
  intro ch hch
  refine ⟨ch.actions.dedup, List.nodup_dedup _, fun s => List.mem_dedup, ?_⟩
  obtain ⟨b, k⟩ := c
  cases k <;> simp_all [normalize_actor]

/-- C4 witness: the amended join/de-duplication rule evaluated on a concrete
player-derived combatant with duplicated spell and action names. -/
theorem joined_name_lists_witness :
    (∃ l : List String, l.Nodup ∧
      (∀ s, s ∈ l ↔ s ∈ prepared_spell_names wizardCombatant) ∧
      (normalize_actor wizardCombatant).spells = String.intercalate ", " l) ∧
    (∃ l : List String, l.Nodup ∧ (∀ s, s ∈ l ↔ s ∈ wizardCharacter.actions) ∧
      (normalize_actor wizardCombatant).actions = some (String.intercalate ", " l)) :=
  ⟨(joined_name_lists wizardCombatant).2.2.1,
   (joined_name_lists wizardCombatant).2.2.2 wizardCharacter rfl⟩

/-- C2: the current-target override is scoped to each `target_iteration`
branch and restored on exit: a root with two sibling `target_iteration`
branches referencing different target indices renders each branch's results
against that branch's own target (`targets[i]` resp. `targets[j]`), the
surrounding state is returned unchanged, and neither sibling's target leaks
into the other. -/
theorem sibling_target_iterations_isolated (caster : String) (targets : List String)
    (ct : Option String) (i j : Nat) (hij : i ≠ j) (rs1 rs2 : RNodeList) :
    stringify caster targets
        (.root (.cons (.tiIdx i rs1) (.cons (.tiIdx j rs2) .nil))) ct
      = (some (String.intercalate "\n"
          ((if (stringify_many caster targets rs1 (some (targets.getD i ""))).1 = ""
            then []
            else [(stringify_many caster targets rs1 (some (targets.getD i ""))).1]) ++
           (if (stringify_many caster targets rs2 (some (targets.getD j ""))).1 = ""
            then []
            else [(stringify_many caster targets rs2 (some (targets.getD j ""))).1]))),
         ct) := by
  simp only [stringify, stringify_collect, stringify_many]
  split_ifs <;> simp

/-- C2 witness: the isolation theorem evaluated on a concrete tree with two
sibling target iterations over different indices. -/
theorem sibling_target_iterations_isolated_witness :
    stringify "Alice" ["X", "Y"]
        (.root (.cons (.tiIdx 0 (.cons (.damage 3) .nil))
                (.cons (.tiIdx 1 (.cons (.damage 5) .nil)) .nil))) none
      = (some "X took 3 damage.\nY took 5 damage.", none) :=
  (sibling_target_iterations_isolated "Alice" ["X", "Y"] none 0 1 (by decide)
      (.cons (.damage 3) .nil) (.cons (.damage 5) .nil)).trans (by rfl)

/-- C9 counterexample: when the unrecognized node is the root of the tree,
stringification of the automation run does not return a narration string —
the inner `stringify` returns `None` and `embed_title + automation_str`
raises a `TypeError` (the claim asserts no error is raised even in this
case). -/
theorem unknown_root_raises :
    stringify_automation_run [unknownRunEvent] unknownRunEvent = .error .typeError := by
  rfl

/-- C9 amended: a node of unrecognized shape renders empty and contributes
nothing to the concatenated narration when it occurs among the children of a
recognized node — the collected renderings with the unknown node are exactly
those without it, and the whole tree still renders to a narration string —
but when the unrecognized node is the root itself the overall stringification
fails (see the counterexample). -/
theorem unknown_node_elides (caster : String) (targets : List String)
    (ct : Option String) (pre post : RNodeList) :
    stringify_collect caster targets (pre.append (.cons .unknown post)) ct
      = stringify_collect caster targets (pre.append post) ct ∧
    stringify caster targets (.root (pre.append (.cons .unknown post))) ct
      = stringify caster targets (.root (pre.append post)) ct ∧
    ∃ s, (stringify caster targets (.root (pre.append (.cons .unknown post))) ct).1
      = some s := by
  have main : ∀ (n : Nat) (pre : RNodeList) (ct : Option String), pre.length = n →
      stringify_collect caster targets (pre.append (.cons .unknown post)) ct
        = stringify_collect caster targets (pre.append post) ct := by
    intro n
    induction n with
    | zero =>
        intro pre ct hl
        cases pre with
        | nil => simp [RNodeList.append, stringify_collect, stringify]
        | cons y ys => simp [RNodeList.length] at hl
    | succ k ih =>
        intro pre ct hl
        cases pre with
        | nil => simp [RNodeList.length] at hl
        | cons y ys =>
            have hl2 : ys.length = k := by
              simpa [RNodeList.length] using hl
            show stringify_collect caster targets
                (.cons y (ys.append (.cons .unknown post))) ct = _
            simp only [stringify_collect, RNodeList.append]
            rw [ih ys _ hl2]
  have h1 := main pre.length pre ct rfl
  refine ⟨h1, ?_, ?_⟩
  · simp only [stringify, h1]
  · exact ⟨String.intercalate "\n" (stringify_collect caster targets (pre.append post) ct).1,
      by simp only [stringify, h1]⟩

/-- If `first_index` returns an index, the element there satisfies the
predicate. -/
theorem first_index_some_mem {α : Type} (p : α → Bool) :
    ∀ (l : List α) (i : Nat), first_index p l = some i →
      ∃ x, l[i]? = some x ∧ p x = true := by
  intro l
  induction l with
  | nil => intro i h; simp [first_index] at h
  | cons a t ih =>
      intro i h
      by_cases hp : p a
      · simp [first_index, hp] at h
        subst h
        exact ⟨a, by simp, hp⟩
      · simp [first_index, hp] at h
        obtain ⟨j, hj, hij⟩ := h
        obtain ⟨x, hx, hpx⟩ := ih j hj
        exact ⟨x, by simpa [← hij] using hx, hpx⟩

/-- `first_index` fails exactly when no element satisfies the predicate. -/
theorem first_index_none_iff {α : Type} (p : α → Bool) (l : List α) :
    first_index p l = none ↔ ∀ x ∈ l, p x = false := by
  induction l with
  | nil => simp [first_index]
  | cons a t ih =>
      by_cases hp : p a <;> simp [first_index, hp, ih]

/-- C6: `event_index` lookup: for message-kind events it depends only on the
ordering key — any structurally replaced event with the same key yields the
same index, and a returned index points at a log entry that is a message
with that key; for non-message events a returned index points at an entry
equal to the argument; and in either mode the lookup fails (`none`, the
raised error) exactly when no entry matches. -/
theorem event_index_spec (events : List Ev) (e : Ev) :
    (e.eventType = "message" →
      (∀ e2, e2.eventType = "message" → e2.messageId = e.messageId →
        event_index events e2 = event_index events e) ∧
      (∀ i, event_index events e = some i →
        ∃ x, events[i]? = some x ∧ x.eventType = "message" ∧
          x.messageId = e.messageId) ∧
      ((∀ x ∈ events, ¬(x.eventType = "message" ∧ x.messageId = e.messageId)) →
        event_index events e = none)) ∧
    (e.eventType ≠ "message" →
      (∀ i, event_index events e = some i → events[i]? = some e) ∧
      (e ∉ events → event_index events e = none)) := by
  constructor
  · intro hmsg
    refine ⟨?_, ?_, ?_⟩
    · intro e2 h2 hid
      simp only [event_index, hmsg, h2, if_pos, hid]
    · intro i h
      simp only [event_index, hmsg, if_pos] at h
      obtain ⟨x, hx, hpx⟩ := first_index_some_mem _ events i h
      simp only [Bool.and_eq_true, beq_iff_eq] at hpx
      exact ⟨x, hx, hpx.1, hpx.2⟩
    · intro hnone
      simp only [event_index, hmsg, if_pos]
      rw [first_index_none_iff]
      intro x hx
      by_contra hc
      rw [Bool.not_eq_false] at hc
      simp only [Bool.and_eq_true, beq_iff_eq] at hc
      exact hnone x hx hc

  · intro hmsg
    constructor
    · intro i h
      unfold event_index at h
      rw [if_neg hmsg] at h
      obtain ⟨x, hx, hpx⟩ := first_index_some_mem _ events i h
      simp only [beq_iff_eq] at hpx
      exact hpx ▸ hx
    · intro hnotin
      unfold event_index
      rw [if_neg hmsg]
      rw [first_index_none_iff]
      intro x hx
      simp only [beq_eq_false_iff_ne, ne_eq]
      exact fun hxe => hnotin (hxe ▸ hx)

/-- C6 witness: position lookup of the structurally replaced message event
returns the same index as lookup of the original. -/
theorem event_index_spec_witness :
    event_index [unknownRunEvent, msgOriginal] msgReplaced
      = event_index [unknownRunEvent, msgOriginal] msgOriginal :=
  ((event_index_spec [unknownRunEvent, msgOriginal] msgOriginal).1 rfl).1
    msgReplaced rfl rfl

/-- C7 counterexample: the claim asserts that mention stripping precedes
proxy-duplicate resolution so that markup inside a substituted candidate's
content survives into the final output.  On this input the candidate's
content (which contains a mention) is substituted, yet the final output has
the mention removed — in particular the output is not the candidate's
content: stripping runs after the substitution. -/
theorem candidate_markup_not_in_output :
    normalize_message proxyEvents proxyOrig false = some " hello there frien" ∧
    normalize_message proxyEvents proxyOrig false ≠ some proxyCand.content := by
  have hidx : event_index proxyEvents proxyOrig = some 0 := rfl
  have hwin : find_window proxyEvents (proxy_pred proxyOrig) 0 (0 + 16)
      = some proxyCand := rfl
  have hl1 : proxyCand.content.length = 38 := rfl
  have hl2 : proxyOrig.content.length = 39 := rfl
  have hr : 0.7 < len_ratio proxyCand proxyOrig ∧
      len_ratio proxyCand proxyOrig < 1 := by
    unfold len_ratio
    rw [hl1, hl2]
    norm_num
  have hmain : normalize_message proxyEvents proxyOrig false
      = some " hello there frien" := by
    unfold normalize_message
    simp only [hidx, hwin]
    rw [if_pos hr]
    decide
  refine ⟨hmain, ?_⟩
  rw [hmain]
  decide

/-- C7 amended: `normalize_message` performs proxy-duplicate resolution
first, on the raw (pre-strip) content — the candidate's substring comparison
is against the original content — and applies mention stripping and emoji
collapsing afterwards, so that when a candidate's content replaces the
working content, mention and emoji markup contained in the candidate's
content is stripped from the final output. -/
theorem dedup_uses_raw_content_then_strips (events : List Ev) (msg : Ev)
    (msgIdx : Nat) (h : event_index events msg = some msgIdx) (sim : Ev)
    (hw : find_window events (proxy_pred msg) msgIdx (msgIdx + 16) = some sim)
    (hr : 0.7 < len_ratio sim msg ∧ len_ratio sim msg < 1) :
    is_substring sim.content msg.content = true ∧
    normalize_message events msg false
      = some (collapse_emoji (strip_mentions sim.content)) := by
  constructor
  · unfold find_window at hw
    have hp := List.find?_some hw
    simp only [proxy_pred, Bool.and_eq_true] at hp
    exact hp.1.1.2
  · unfold normalize_message
    simp only [h, hw]
    rw [if_pos hr]
    simp

/-- C7 witness: the amended ordering evaluated on the concrete proxy
scenario. -/
theorem dedup_uses_raw_content_then_strips_witness :
    is_substring proxyCand.content proxyOrig.content = true ∧
    normalize_message proxyEvents proxyOrig false
      = some (collapse_emoji (strip_mentions proxyCand.content)) :=
  dedup_uses_raw_content_then_strips proxyEvents proxyOrig 0 rfl proxyCand rfl
    (by unfold len_ratio
        rw [show proxyCand.content.length = 38 from rfl,
          show proxyOrig.content.length = 39 from rfl]
        norm_num)

/-- C8: proxy-duplicate resolution replaces the message content with the
candidate's content only when a window candidate exists (a message within
the next 16 log positions by a different author, flagged as automated, with
non-empty content that is a substring of the original — the `proxy_pred`
window search) and the length ratio candidate/original is strictly between
0.7 and 1; when a candidate is found but the ratio is out of that open range
(including exactly 0.7 and exactly 1), the original content is kept; in
every case the outcome is a normal string result, never an error. -/
theorem dedup_ratio_guard (events : List Ev) (msg : Ev) (msgIdx : Nat)
    (h : event_index events msg = some msgIdx) :
    (find_window events (proxy_pred msg) msgIdx (msgIdx + 16) = none →
      normalize_message events msg false
        = some (collapse_emoji (strip_mentions msg.content))) ∧
    (∀ sim, find_window events (proxy_pred msg) msgIdx (msgIdx + 16) = some sim →
      ((0.7 < len_ratio sim msg ∧ len_ratio sim msg < 1) →
        normalize_message events msg false
          = some (collapse_emoji (strip_mentions sim.content))) ∧
      (¬(0.7 < len_ratio sim msg ∧ len_ratio sim msg < 1) →
        normalize_message events msg false
          = some (collapse_emoji (strip_mentions msg.content)))) := by
  refine ⟨?_, ?_⟩
  · intro hw
    unfold normalize_message
    simp only [h, hw]
    simp
  · intro sim hw
    constructor
    · intro hr
      unfold normalize_message
      simp only [h, hw]
      rw [if_pos hr]
      simp
    · intro hr
      unfold normalize_message
      simp only [h, hw]
      rw [if_neg hr]
      simp

/-- C8 witness: an exact-ratio-1 candidate is found but the original content
is kept, with a normal string outcome. -/
theorem dedup_ratio_guard_witness :
    normalize_message proxyEvents2 proxyOrig2 false
      = some (collapse_emoji (strip_mentions proxyOrig2.content)) :=
  ((dedup_ratio_guard proxyEvents2 proxyOrig2 0 rfl).2 proxyCand2 rfl).2
    (by unfold len_ratio
        rw [show proxyCand2.content.length = 11 from rfl,
          show proxyOrig2.content.length = 11 from rfl]
        norm_num)

/-- If the target-collection loop discards (returns `.ok none`), some walked
target was a bare string. -/
theorem collect_targets_none_has_str (chars : Cache) :
    ∀ (ts : List TargetRef) (acc : List ActorRecord),
      collect_targets chars ts acc = .ok none → ∃ s, TargetRef.str s ∈ ts := by
  intro ts
  induction ts with
  | nil => intro acc h; simp [collect_targets] at h
  | cons hd rest ih =>
      intro acc h
      cases hd with
      | str s => exact ⟨s, List.mem_cons_self _ _⟩
      | actor r =>
          rw [collect_targets] at h
          cases hna : normalize_actor_raw chars r with
          | error er => rw [hna] at h; cases h
          | ok a =>
              rw [hna] at h
              obtain ⟨s, hs⟩ := ih _ h
              exact ⟨s, List.mem_cons_of_mem _ hs⟩

/-- If the target-collection loop completes (returns `.ok (some _)`), no
walked target was a bare string. -/
theorem collect_targets_some_no_str (chars : Cache) :
    ∀ (ts : List TargetRef) (acc : List ActorRecord) (l : List ActorRecord),
      collect_targets chars ts acc = .ok (some l) → ∀ s, TargetRef.str s ∉ ts := by
  intro ts
  induction ts with
  | nil => intro acc l h s; simp
  | cons hd rest ih =>
      intro acc l h s hmem
      cases hd with
      | str s2 => simp [collect_targets] at h
      | actor r =>
          rw [collect_targets] at h
          cases hna : normalize_actor_raw chars r with
          | error er => rw [hna] at h; cases h
          | ok a =>
              rw [hna] at h
              rcases List.mem_cons.mp hmem with h1 | h1
              · cases h1
              · exact ih _ _ h s h1

/-- Cache insertion only adds or overwrites: a key present before stays
present. -/
theorem cache_lookup_insert_isSome (k k2 : Int × Int) (v : Character) :
    ∀ (chars : Cache), (cache_lookup k chars).isSome →
      (cache_lookup k (cache_insert k2 v chars)).isSome := by
  intro chars
  induction chars with
  | nil => intro h; simp [cache_lookup] at h
  | cons p rest ih =>
      intro h
      by_cases hk : p.1 = k2
      · rw [show cache_insert k2 v (p :: rest) = (k2, v) :: rest by
          rw [cache_insert, if_pos hk]]
        by_cases hkk : k2 = k
        · simp [cache_lookup, hkk]
        · rw [cache_lookup] at h ⊢
          rw [if_neg hkk]
          rw [if_neg (by rw [hk]; exact hkk)] at h
          exact h
      · rw [show cache_insert k2 v (p :: rest) = p :: cache_insert k2 v rest by
          rw [show (p : (Int × Int) × Character) = (p.1, p.2) from rfl, cache_insert, if_neg hk]]
        rw [cache_lookup] at h ⊢
        by_cases hpk : p.1 = k
        · simpa [hpk] using h
        · rw [if_neg hpk] at h ⊢
          exact ih h

/-- Character extraction from one event preserves cache membership. -/
theorem cache_lookup_extract_isSome (k : Int × Int) (e : Ev) (chars : Cache)
    (h : (cache_lookup k chars).isSome) :
    (cache_lookup k (extract_character chars e)).isSome := by
  unfold extract_character
  split
  · split
    · exact cache_lookup_insert_isSome _ _ _ _ h
    · exact h
  · exact h

/-- A fold of character extractions preserves cache membership. -/
theorem cache_lookup_fold_isSome (k : Int × Int) :
    ∀ (evs : List Ev) (chars : Cache), (cache_lookup k chars).isSome →
      (cache_lookup k (evs.foldl extract_character chars)).isSome := by
  intro evs
  induction evs with
  | nil => intro chars h; exact h
  | cons e rest ih =>
      intro chars h
      exact ih _ (cache_lookup_extract_isSome k e chars h)

/-- C5: among non-error outcomes, `process_triple` discards the triple
(returns null, with no partial record) exactly when (a) some target of a
command-span automation-run event is a bare string, or (b) the command span
contains no `combat_state_update` event and no `combat_state_update` exists
after the span's last command event; every other non-error outcome is a
complete output record. -/
theorem process_triple_discard_iff (st : SessState) (t : Triple) (stOut : SessState)
    (out : Option Record)
    (h : process_triple st t = .ok (stOut, out)) :
    out = none ↔
      (∃ e ∈ t.commands, e.eventType = "automation_run" ∧
        ∃ s, TargetRef.str s ∈ e.targets) ∨
      ((t.commands.filter (fun e => e.eventType == "combat_state_update")) = [] ∧
       ∃ last, t.commands.getLast? = some last ∧
         combat_state_after_event st.events last = .ok none) := by
  simp only [process_triple] at h
  split at h
  · simp at h
  rename_i x1 cmd0 hcmd
  split at h
  · simp at h
  rename_i x2 bu hbu
  split at h
  · simp at h
  rename_i x3 au hau
  split at h
  · simp at h
  rename_i x4 h5 hh5
  split at h
  · simp at h
  rename_i x5 cmd0Idx hidx
  split at h
  · simp at h
  · simp at h
  rename_i x6 csb hcsb
  split at h
  · simp at h
  rename_i x7 bsi hbsi
  split at h
  · simp at h
  rename_i x8 cbs curb hdecb
  split at h
  · simp at h
  rename_i x9 runsHd runsTl hruns
  split at h
  · simp at h
  rename_i x10 rawCaster hcaster
  split at h
  · simp at h
  rename_i x11 casterNorm hcnorm
  split at h
  · simp at h
  case _ x12 hct =>
    -- discard site (a): a bare-string target
    simp only [Except.ok.injEq, Prod.mk.injEq] at h
    obtain ⟨hst, hout⟩ := h
    subst hout
    constructor
    · intro _
      left
      obtain ⟨s, hs⟩ := collect_targets_none_has_str _ _ _ hct
      rw [List.mem_flatten] at hs
      obtain ⟨l, hl, hsl⟩ := hs
      rw [List.mem_map] at hl
      obtain ⟨e, he, rfl⟩ := hl
      rw [List.mem_filter] at he
      exact ⟨e, he.1, by simpa using he.2, s, hsl⟩
    · intro _
      rfl
  case _ x12 targetsAfter hct =>
    split at h
    · simp at h
    rename_i x13 autoRes hAutoRes
    split at h
    · simp at h
    rename_i x14 cmdLast hlast
    split at h
    · simp at h
    rename_i x15 lastIdx hlidx
    split at h
    · simp at h
    case _ x16 hfound =>
      -- discard site (b): no terminal combat state
      simp only [Except.ok.injEq, Prod.mk.injEq] at h
      obtain ⟨hst, hout⟩ := h
      subst hout
      constructor
      · intro _
        right
        rcases hf : (List.filter (fun e => e.eventType == "combat_state_update")
            t.commands).getLast? with _ | u
        · rw [hf] at hfound
          exact ⟨List.getLast?_eq_none_iff.mp hf, cmdLast, hlast, hfound⟩
        · rw [hf] at hfound
          simp at hfound
      · intro _
        rfl
    case _ x16 lcu hfound =>
      split at h
      · simp at h
      rename_i x17 afterStateIdx haidx
      split at h
      · simp at h
      rename_i x18 cba cura hdeca
      split at h
      · simp at h
      rename_i x19 beforeIdxs hbidx
      split at h
      · simp at h
      rename_i x20 commandIdxs hcidx
      split at h
      · simp at h
      rename_i x21 afterIdxs haftidx
      simp only [Except.ok.injEq, Prod.mk.injEq] at h
      obtain ⟨hst, hout⟩ := h
      subst hout
      constructor
      · intro hc
        exact absurd hc (by simp)
      · intro hAB
        exfalso
        rcases hAB with hA | hB
        · obtain ⟨e, he, htype, s, hs⟩ := hA
          apply collect_targets_some_no_str _ _ _ _ hct s
          rw [List.mem_flatten]
          exact ⟨e.targets,
            List.mem_map.mpr ⟨e, List.mem_filter.mpr ⟨he, by simpa using htype⟩, rfl⟩,
            hs⟩
        · obtain ⟨hfil, last, hl, haft⟩ := hB
          rw [hfil] at hfound
          simp only [List.getLast?_nil] at hfound
          rw [hlast] at hl
          cases hl
          rw [haft] at hfound
          simp at hfound

/-- C10: when `process_triple` discards a triple (returns null), the session
state has already been mutated and is not rolled back: the log is unchanged,
the rolling utterance history is exactly the old history with the triple's
entire before-window appended and re-sorted by message ordering key (in
particular the after-window has not been appended), and every character key
cached by the forward scan up to the first command is still present in the
session character cache. -/
theorem process_triple_discard_frame (st : SessState) (t : Triple) (stOut : SessState)
    (h : process_triple st t = .ok (stOut, none)) :
    stOut.events = st.events ∧
    stOut.utteranceHistory = sort_by_message_id (st.utteranceHistory ++ t.before) ∧
    (∀ cmd0 i, t.commands.head? = some cmd0 → event_index st.events cmd0 = some i →
      ∀ k, (cache_lookup k (extract_characters_forward st.events st.characters i)).isSome →
        (cache_lookup k stOut.characters).isSome) := by
  simp only [process_triple] at h
  split at h
  · simp at h
  rename_i x1 cmd0 hcmd
  split at h
  · simp at h
  rename_i x2 bu hbu
  split at h
  · simp at h
  rename_i x3 au hau
  split at h
  · simp at h
  rename_i x4 h5 hh5
  split at h
  · simp at h
  rename_i x5 cmd0Idx hidx
  split at h
  · simp at h
  · simp at h
  rename_i x6 csb hcsb
  split at h
  · simp at h
  rename_i x7 bsi hbsi
  split at h
  · simp at h
  rename_i x8 cbs curb hdecb
  split at h
  · simp at h
  rename_i x9 runsHd runsTl hruns
  split at h
  · simp at h
  rename_i x10 rawCaster hcaster
  split at h
  · simp at h
  rename_i x11 casterNorm hcnorm
  split at h
  · simp at h
  case _ x12 hct =>
    -- discard site (a): only the forward scan has run
    simp only [Except.ok.injEq, Prod.mk.injEq] at h
    obtain ⟨hst, -⟩ := h
    subst hst
    refine ⟨rfl, rfl, ?_⟩
    intro c0 i hc0 hi k hk
    rw [hcmd] at hc0
    cases hc0
    rw [hidx] at hi
    cases hi
    exact hk
  case _ x12 targetsAfter hct =>
    split at h
    · simp at h
    rename_i x13 autoRes hAutoRes
    split at h
    · simp at h
    rename_i x14 cmdLast hlast
    split at h
    · simp at h
    rename_i x15 lastIdx hlidx
    split at h
    · simp at h
    case _ x16 hfound =>
      -- discard site (b): forward then backward scan have run
      simp only [Except.ok.injEq, Prod.mk.injEq] at h
      obtain ⟨hst, -⟩ := h
      subst hst
      refine ⟨rfl, rfl, ?_⟩
      intro c0 i hc0 hi k hk
      rw [hcmd] at hc0
      cases hc0
      rw [hidx] at hi
      cases hi
      show (cache_lookup k (extract_characters_backward st.events
        (extract_characters_forward st.events st.characters cmd0Idx) lastIdx)).isSome
      unfold extract_characters_backward
      exact cache_lookup_fold_isSome k _ _ hk
    case _ x16 lcu hfound =>
      repeat (any_goals (split at h <;> try simp at h))
      all_goals simp at h

/-- C5 witness: the discard characterization evaluated on the concrete
bare-string-target triple. -/
theorem process_triple_discard_iff_witness :
    (none : Option Record) = none ↔
      (∃ e ∈ wTriple.commands, e.eventType = "automation_run" ∧
        ∃ s, TargetRef.str s ∈ e.targets) ∨
      ((wTriple.commands.filter (fun e => e.eventType == "combat_state_update")) = [] ∧
       ∃ last, wTriple.commands.getLast? = some last ∧
         combat_state_after_event wState.events last = .ok none) :=
  process_triple_discard_iff wState wTriple wState none (by rfl)

/-- C10 witness: the frame property evaluated on the concrete discarded
triple. -/
theorem process_triple_discard_frame_witness :
    wState.events = wState.events ∧
    wState.utteranceHistory = sort_by_message_id (wState.utteranceHistory ++ wTriple.before) ∧
    (∀ cmd0 i, wTriple.commands.head? = some cmd0 →
      event_index wState.events cmd0 = some i →
      ∀ k, (cache_lookup k (extract_characters_forward wState.events wState.characters i)).isSome →
        (cache_lookup k wState.characters).isSome) :=
  process_triple_discard_frame wState wTriple wState (by rfl)
